import Mathlib

/-!
# movitzs-krypto-server: the HTTP handlers of `server.go`

A shallow embedding of `server.go` (package `server`): the response writer the
handlers talk to, the `encoding/json` decoding of an `uploadPayload`, and the
handlers `index`, `upload`, `getChildren` together with `RegisterRoutes`.
-/

namespace Server

/-! ## net/http: status codes and the response writer -/

/-- `http.StatusOK`. -/
def StatusOK : Nat := 200
/-- `http.StatusCreated`. -/
def StatusCreated : Nat := 201
/-- `http.StatusBadRequest`. -/
def StatusBadRequest : Nat := 400
/-- `http.StatusNotFound`. -/
def StatusNotFound : Nat := 404
/-- The state of an `http.ResponseWriter`: `wroteHeader` is the status line
already committed (by the first `WriteHeader`, or implicitly by the first
`Write`), `headerCalls` lists every explicit `WriteHeader` call of the handler
in order, `body` is the bytes written so far. -/
structure ResponseWriter where
  wroteHeader : Option Nat
  headerCalls : List Nat
  body : List UInt8
  deriving DecidableEq, Repr

namespace ResponseWriter

/-- The writer a handler receives for a new request. -/
def fresh : ResponseWriter := ⟨none, [], []⟩

/-- `rw.WriteHeader(code)`: only the first status is committed, a later call
is superfluous and leaves the committed status alone. -/
def WriteHeader (rw : ResponseWriter) (code : Nat) : ResponseWriter :=
  { rw with
    wroteHeader := some (rw.wroteHeader.getD code)
    headerCalls := rw.headerCalls ++ [code] }

/-- `rw.Write(b)`: commits `200 OK` when no status was committed before, then
appends the bytes. -/
def Write (rw : ResponseWriter) (b : List UInt8) : ResponseWriter :=
  { rw with
    wroteHeader := some (rw.wroteHeader.getD StatusOK)
    body := rw.body ++ b }

/-- The status the client receives once the handler has returned: the
committed one, `200 OK` when the handler committed none. -/
def status (rw : ResponseWriter) : Nat := rw.wroteHeader.getD StatusOK

end ResponseWriter

/-- `[]byte(s)`: the UTF-8 bytes of a string. -/
def bytes (s : String) : List UInt8 := s.data.flatMap String.utf8EncodeChar

/-- `len(s)` of a Go string: its length in bytes. -/
def len (s : String) : Nat := s.utf8ByteSize

/-! ## Go's `int` -/

/-- The width of Go's `int` in bits. -/
def intSize : Nat := 64

/-- Two's-complement wrap-around of an integer into the range of `int`. -/
def wrapInt (z : Int) : Int :=
  (z + 2 ^ (intSize - 1)) % 2 ^ intSize - 2 ^ (intSize - 1)

/-- `math.Pow(x, y)` for float64 arguments that hold natural numbers. The
result `x ^ y` is exact while it stays below `2 ^ 53`, where every product of
the square-and-multiply loop is an integer that float64 represents exactly;
the handler uses it at `(10, 9)` only. -/
def mathPow (x y : Nat) : Nat := x ^ y

/-- The bound of `upload`: `4*int(math.Pow(10, 9))`. -/
def uploadLimit : Int := wrapInt (4 * wrapInt (Int.ofNat (mathPow 10 9)))

/-! ## encoding/json -/

/-- A JSON number literal: `int i` is a literal with neither fraction nor
exponent, `real` any other literal (kept as its text). -/
inductive JNumber where
  | int (i : Int)
  | real (text : String)
  deriving Repr

/-- A JSON value. -/
inductive JSON where
  | null
  | bool (b : Bool)
  | num (n : JNumber)
  | str (s : String)
  | arr (xs : List JSON)
  | obj (kvs : List (String × JSON))

/-- The body of a request as `json.NewDecoder(r.Body).Decode` sees it:
`value` is the first JSON value of the stream (`none` when the stream is empty
or does not start with a well-formed JSON value), `rest` the bytes after it. -/
structure Body where
  value : Option JSON
  rest : List UInt8

/-- An `*http.Request`: the path of its URL and its body. -/
structure Request where
  Path : String
  Body : Body

/-- The payload `upload` decodes. -/
structure uploadPayload where
  Metadata : String
  ContentHash : String
  ContentLength : Int
  Type_ : String
  deriving DecidableEq, Repr

/-- The zero value, `var x uploadPayload`. -/
def uploadPayload.zero : uploadPayload := ⟨"", "", 0, ""⟩

/-- The errors of `Decode`: a syntax error (or `io.EOF` on an empty stream),
and `*json.UnmarshalTypeError` for a value that does not fit its Go type. -/
inductive DecodeError where
  | malformed
  | unmarshalType (field : String)
  deriving DecidableEq, Repr

/-- The fields of `uploadPayload`, by their `json` tag. -/
inductive Field where
  | metadata | content_hash | content_length | type_
  deriving DecidableEq, Repr

/-- The `json` tag of a field. -/
def Field.tag : Field → String
  | .metadata => "metadata"
  | .content_hash => "content_hash"
  | .content_length => "content_length"
  | .type_ => "type"

/-- Case folding of one rune as `encoding/json` matches keys: a letter folds to
its upper case; so do the two non-ASCII runes whose simple fold is an ASCII
letter, U+017F (long s) and U+212A (Kelvin sign). -/
def foldRune (c : Char) : Char :=
  if c = Char.ofNat 0x17F then 'S'
  else if c = Char.ofNat 0x212A then 'K'
  else c.toUpper

/-- Folded name of a key. -/
def foldName (s : String) : List Char := s.data.map foldRune

/-- The field a key of the JSON object stands for: the field with exactly this
tag, else the first one whose tag equals the key up to case folding. -/
def lookupField (key : String) : Option Field :=
  let fields := [Field.metadata, .content_hash, .content_length, .type_]
  match fields.find? (fun f => f.tag = key) with
  | some f => some f
  | none => fields.find? (fun f => foldName f.tag = foldName key)

/-- Store one JSON value into a `string` field: a string is stored, `null`
leaves the field as it is, anything else is a type error. -/
def storeString (old : String) : JSON → Except Unit String
  | .str s => .ok s
  | .null => .ok old
  | _ => .error ()

/-- Store one JSON value into an `int` field: an integer literal that
`strconv.ParseInt(_, 10, 64)` accepts and that fits `int` is stored, `null`
leaves the field as it is, anything else is a type error. -/
def storeInt (old : Int) : JSON → Except Unit Int
  | .num (.int i) =>
      if -(2 ^ 63) ≤ i ∧ i < 2 ^ 63 ∧ wrapInt i = i then .ok i else .error ()
  | .null => .ok old
  | _ => .error ()

/-- Decode one member of the JSON object into the struct; a key that names no
field is skipped. -/
def setField (x : uploadPayload) (key : String) (v : JSON) :
    uploadPayload × Option DecodeError :=
  match lookupField key with
  | none => (x, none)
  | some .metadata =>
      match storeString x.Metadata v with
      | .ok s => ({ x with Metadata := s }, none)
      | .error _ => (x, some (.unmarshalType "metadata"))
  | some .content_hash =>
      match storeString x.ContentHash v with
      | .ok s => ({ x with ContentHash := s }, none)
      | .error _ => (x, some (.unmarshalType "content_hash"))
  | some .content_length =>
      match storeInt x.ContentLength v with
      | .ok i => ({ x with ContentLength := i }, none)
      | .error _ => (x, some (.unmarshalType "content_length"))
  | some .type_ =>
      match storeString x.Type_ v with
      | .ok s => ({ x with Type_ := s }, none)
      | .error _ => (x, some (.unmarshalType "type"))

/-- Decode the members of a JSON object in order. A type error does not stop
the decoding: the first one is saved and returned at the end, the members
after it are still stored. -/
def decodeObject : List (String × JSON) → uploadPayload → Option DecodeError →
    uploadPayload × Option DecodeError
  | [], x, saved => (x, saved)
  | (k, v) :: kvs, x, saved =>
      let (x', e) := setField x k v
      decodeObject kvs x' (saved.orElse fun _ => e)

/-- `json.NewDecoder(body).Decode(&x)` with `x` the zero payload: the payload
after the call and the error returned (`none` for `nil`). -/
def Decode (b : Body) : uploadPayload × Option DecodeError :=
  match b.value with
  | none => (uploadPayload.zero, some .malformed)
  | some .null => (uploadPayload.zero, none)
  | some (.obj kvs) => decodeObject kvs uploadPayload.zero none
  | some _ => (uploadPayload.zero, some (.unmarshalType ""))

/-! ## The handlers -/

/-- `func (s *Server) index(rw, r)`. -/
def index (rw : ResponseWriter) (_r : Request) : ResponseWriter :=
  rw.Write (bytes "banner?")

/-- `func (s *Server) upload(rw, r)`. -/
def upload (rw : ResponseWriter) (r : Request) : ResponseWriter :=
  let (x, err) := Decode r.Body
  if err ≠ none then
    rw.WriteHeader StatusBadRequest
  else if x.ContentLength > uploadLimit then
    rw.WriteHeader StatusBadRequest
  else if len x.ContentHash ≠ 64 then
    rw
  else
    rw

/-- `func (s *Server) getChildren(rw, r)`: the body of the function is empty. -/
def getChildren (rw : ResponseWriter) (_r : Request) : ResponseWriter :=
  rw

/-- The handlers of the server, as values a mux can hold. -/
inductive Handler where
  | index | upload | getChildren
  deriving DecidableEq, Repr

/-- Run a handler. -/
def Handler.serve : Handler → ResponseWriter → Request → ResponseWriter
  | .index => Server.index
  | .upload => Server.upload
  | .getChildren => Server.getChildren

/-- An `http.ServeMux`: the registered patterns with their handlers, in the
order of registration. A new mux (the zero value) holds none. -/
structure ServeMux where
  entries : List (String × Handler)
  deriving DecidableEq, Repr

/-- `mux.HandleFunc(pattern, handler)` for a well-formed pattern such as `/`:
panics (`none`) when the pattern conflicts with a registered one, else adds the
entry. `conflicts` is the conflict relation of `net/http` between two patterns
(equal patterns conflict, and so do patterns such as `/{x...}` and `/`). -/
def ServeMux.HandleFunc (conflicts : String → String → Bool) (mux : ServeMux)
    (pattern : String) (h : Handler) : Option ServeMux :=
  if mux.entries.any (fun e => conflicts e.1 pattern) then none
  else some ⟨mux.entries ++ [(pattern, h)]⟩

/-- What a call `s.RegisterRoutes(mux)` leaves behind. The function returns no
value: either `HandleFunc` panicked, or the call returned, and then `callee` is
what the parameter, the function's own copy of the mux, held when it returned,
and `caller` is what the mux of the caller holds after the call. `caller` is
`none` where it is not determined here: the copy of a mux that holds routes
shares memory with the original. -/
inductive Outcome where
  | panicked
  | returned (callee : ServeMux) (caller : Option ServeMux)
  deriving DecidableEq, Repr

/-- `func (s *Server) RegisterRoutes(mux http.ServeMux)`. The mux is passed by
value and nothing is returned: `mux.HandleFunc("/", s.index)` runs on the copy,
which is dropped when the function returns. The copy of a new mux shares
nothing with the original, which is left as it was. -/
def RegisterRoutes (conflicts : String → String → Bool) (mux : ServeMux) : Outcome :=
  match ServeMux.HandleFunc conflicts mux "/" .index with
  | none => .panicked
  | some callee => .returned callee (if mux.entries.isEmpty then some mux else none)

/-! ## Vocabulary of the specification -/

/-- A hexadecimal digit, in either case. -/
def isHexChar (c : Char) : Bool :=
  ('0' ≤ c && c ≤ '9') || ('a' ≤ c && c ≤ 'f') || ('A' ≤ c && c ≤ 'F')

/-- A well-formed declared hash: exactly 64 characters, each a hexadecimal
digit. -/
def isHexDigest (s : String) : Bool :=
  s.data.length == 64 && s.data.all isHexChar

/-- The JSON text of an array of strings that need no escaping, such as
hashes: `[]` for no string, `["a","b"]` for two. -/
def jsonArray (hs : List String) : List UInt8 :=
  bytes "[" ++ bytes (",".intercalate (hs.map fun h => "\"" ++ h ++ "\"")) ++ bytes "]"

/-! ## Concrete requests -/

/-- The SHA-256 digest of the five bytes `hello`, in hexadecimal. -/
def hashHello : String :=
  "2cf24dba5fb0a30e26e83b2ac5b9e29e1b161e5c1fa7425e73043362938b9824"

/-- A string of 64 characters that is no hexadecimal number: `hashHello` with
its first digit replaced by `z`. -/
def hashNotHex : String :=
  "zcf24dba5fb0a30e26e83b2ac5b9e29e1b161e5c1fa7425e73043362938b9824"

/-- A request to `/objects` whose body is the JSON object
`{"type": t, "content_hash": h, "content_length": n}` followed by the bytes
`rest`. -/
def payloadRequest (t h : String) (n : Int) (rest : List UInt8) : Request :=
  ⟨"/objects",
    ⟨some (.obj [("type", .str t), ("content_hash", .str h),
        ("content_length", .num (.int n))]), rest⟩⟩

/-- A request whose body `{"content_length": 5000000001, "type": 5}` does not
decode: the member `type` is a number. -/
def mistypedRequest : Request :=
  ⟨"/objects",
    ⟨some (.obj [("content_length", .num (.int 5000000001)), ("type", .num (.int 5))]), []⟩⟩

/-- A request for the children of the object `hashHello`. -/
def childrenRequest : Request :=
  ⟨"/objects/" ++ hashHello ++ "/children", ⟨none, []⟩⟩

/-! ## Lemmas on the handlers -/

theorem uploadLimit_eq : uploadLimit = 4000000000 := by decide

/-- What `upload` does once the body has decoded without error. -/
theorem upload_of_decoded (rw : ResponseWriter) (r : Request) (x : uploadPayload)
    (h : Decode r.Body = (x, none)) :
    upload rw r =
      if x.ContentLength > 4000000000 then rw.WriteHeader StatusBadRequest else rw := by
  unfold upload
  rw [h]
  simp only [uploadLimit_eq, ne_eq, not_true_eq_false, if_false, ite_self]

/-- What `upload` does once the decoder returned an error. -/
theorem upload_of_error (rw : ResponseWriter) (r : Request) (x : uploadPayload)
    (e : DecodeError) (h : Decode r.Body = (x, some e)) :
    upload rw r = rw.WriteHeader StatusBadRequest := by
  unfold upload
  rw [h]
  simp

/-! ## Lemmas on the decoder -/

/-- `setField` keeps the declared length inside the range of `int`. -/
theorem setField_range (x : uploadPayload) (k : String) (v : JSON)
    (hx : -(2 ^ 63) ≤ x.ContentLength ∧ x.ContentLength < 2 ^ 63) :
    -(2 ^ 63) ≤ (setField x k v).1.ContentLength ∧
      (setField x k v).1.ContentLength < 2 ^ 63 := by
  unfold setField
  split
  · exact hx
  · split <;> exact hx
  · split <;> exact hx
  · split
    · rename_i i hi
      unfold storeInt at hi
      split at hi
      · split at hi
        · rename_i hr
          cases hi
          exact ⟨hr.1, hr.2.1⟩
        · cases hi
      · cases hi
        exact hx
      · cases hi
    · exact hx
  · split <;> exact hx

theorem decodeObject_range (kvs : List (String × JSON)) (x : uploadPayload)
    (saved : Option DecodeError)
    (hx : -(2 ^ 63) ≤ x.ContentLength ∧ x.ContentLength < 2 ^ 63) :
    -(2 ^ 63) ≤ (decodeObject kvs x saved).1.ContentLength ∧
      (decodeObject kvs x saved).1.ContentLength < 2 ^ 63 := by
  induction kvs generalizing x saved with
  | nil => exact hx
  | cons kv kvs ih =>
      obtain ⟨k, v⟩ := kv
      simp only [decodeObject]
      exact ih _ _ (setField_range x k v hx)

/-- The declared length the decoder delivers always fits Go's `int`. -/
theorem Decode_range (b : Body) :
    -(2 ^ 63) ≤ (Decode b).1.ContentLength ∧ (Decode b).1.ContentLength < 2 ^ 63 := by
  have hz : -(2 ^ 63) ≤ uploadPayload.zero.ContentLength ∧
      uploadPayload.zero.ContentLength < 2 ^ 63 := by decide
  unfold Decode
  split
  · exact hz
  · exact hz
  · exact decodeObject_range _ _ _ hz
  · exact hz

/-- The payload of `payloadRequest` decodes into the fields it was built
from. -/
theorem Decode_payloadRequest (t h : String) (n : Int) (rest : List UInt8)
    (hn : -(2 ^ 63) ≤ n ∧ n < 2 ^ 63) :
    Decode (payloadRequest t h n rest).Body = (⟨"", h, n, t⟩, none) := by
  have h1 : lookupField "type" = some .type_ := by decide
  have h2 : lookupField "content_hash" = some .content_hash := by decide
  have h3 : lookupField "content_length" = some .content_length := by decide
  have hw : wrapInt n = n := by
    simp only [wrapInt, intSize]
    norm_num
    omega
  have hc : (-(2 ^ 63) ≤ n ∧ n < 2 ^ 63 ∧ wrapInt n = n) := ⟨hn.1, hn.2, hw⟩
  simp only [payloadRequest, Decode, decodeObject, setField, h1, h2, h3, storeString,
    storeInt, if_pos hc, uploadPayload.zero, Option.orElse]

/-- The text of a JSON array is never empty. -/
theorem jsonArray_ne_nil (hs : List String) : jsonArray hs ≠ [] := by
  have hb : bytes "[" = [91] := by decide
  simp [jsonArray, hb]

/-! ## The claims -/

/-- C1. Size boundary of `upload`, Go's `int` being 64 bits wide: the bound
`4*int(math.Pow(10, 9))` is exactly 4,000,000,000; for every request whose body
decodes into a payload, a `content_length` above 4,000,000,000 is answered with
400 Bad Request, and a `content_length` of exactly 4,000,000,000 together with a
well-formed hash of 64 hexadecimal characters is not answered with 400. -/
theorem upload_size_boundary (r : Request) (x : uploadPayload)
    (hdec : Decode r.Body = (x, none)) :
    uploadLimit = 4000000000 ∧
    (x.ContentLength > 4000000000 →
      (upload .fresh r).status = StatusBadRequest) ∧
    (x.ContentLength = 4000000000 → isHexDigest x.ContentHash = true →
      (upload .fresh r).status ≠ StatusBadRequest) := by
  refine ⟨uploadLimit_eq, ?_, ?_⟩
  · intro hgt
    rw [upload_of_decoded _ _ _ hdec, if_pos hgt]
    rfl
  · intro heq _
    rw [upload_of_decoded _ _ _ hdec, if_neg (by omega)]
    decide

/-- C1 at 4,000,000,001, at 5,000,000,001 and at 4,000,000,000. -/
theorem upload_size_boundary_witness :
    (upload .fresh (payloadRequest "blob" hashHello 4000000001 [])).status = StatusBadRequest ∧
    (upload .fresh (payloadRequest "blob" hashHello 5000000001 [])).status = StatusBadRequest ∧
    (upload .fresh (payloadRequest "blob" hashHello 4000000000 [])).status ≠ StatusBadRequest :=
  ⟨(upload_size_boundary (payloadRequest "blob" hashHello 4000000001 [])
      ⟨"", hashHello, 4000000001, "blob"⟩ (by decide)).2.1 (by decide),
   (upload_size_boundary (payloadRequest "blob" hashHello 5000000001 [])
      ⟨"", hashHello, 5000000001, "blob"⟩ (by decide)).2.1 (by decide),
   (upload_size_boundary (payloadRequest "blob" hashHello 4000000000 [])
      ⟨"", hashHello, 4000000000, "blob"⟩ (by decide)).2.2 (by decide) (by decide)⟩

/-- C2, as the specification states it, fails: the body
`{"type": "blob", "content_hash": h, "content_length": 5}` with `h` a string of
64 characters the first of which is `z` decodes, its hash is no hexadecimal
number, and `upload` sets no status at all, so the answer is not 400. -/
theorem upload_accepts_non_hex_hash :
    Decode (payloadRequest "blob" hashNotHex 5 []).Body
      = (⟨"", hashNotHex, 5, "blob"⟩, none) ∧
    hashNotHex.length = 64 ∧
    isHexDigest hashNotHex = false ∧
    (upload .fresh (payloadRequest "blob" hashNotHex 5 [])).headerCalls = [] ∧
    (upload .fresh (payloadRequest "blob" hashNotHex 5 [])).status ≠ StatusBadRequest := by
  decide

/-- C2, amended. `upload` looks at the length of `content_hash` only, never at
its characters: for every request whose body decodes into a payload whose
`content_hash` is 64 bytes long, hexadecimal or not, the answer is 400 Bad
Request exactly when `content_length` exceeds 4,000,000,000. -/
theorem upload_hash_of_64_bytes (r : Request) (x : uploadPayload)
    (hdec : Decode r.Body = (x, none)) (_h64 : len x.ContentHash = 64) :
    (upload .fresh r).status = StatusBadRequest ↔ x.ContentLength > 4000000000 := by
  rw [upload_of_decoded _ _ _ hdec]
  constructor
  · intro hs
    by_contra hle
    rw [if_neg hle] at hs
    revert hs
    decide
  · intro hgt
    rw [if_pos hgt]
    rfl

/-- C2 amended, at a hash of 64 bytes that is no hexadecimal number. -/
theorem upload_hash_of_64_bytes_witness :
    len hashNotHex = 64 ∧ isHexDigest hashNotHex = false ∧
    ((upload .fresh (payloadRequest "blob" hashNotHex 5 [])).status = StatusBadRequest ↔
      (5 : Int) > 4000000000) :=
  ⟨by decide, by decide,
    upload_hash_of_64_bytes (payloadRequest "blob" hashNotHex 5 [])
      ⟨"", hashNotHex, 5, "blob"⟩ (by decide) (by decide)⟩

/-- C4. Malformed input: for every request whose body fails to decode into an
`uploadPayload`, `upload` does one thing, `WriteHeader(400)`: the status is
400 Bad Request, no byte of body is written, and whatever the decoder left in
the payload plays no part (no second status is set by a later check). -/
theorem upload_malformed (rw : ResponseWriter) (r : Request) (x : uploadPayload)
    (e : DecodeError) (hdec : Decode r.Body = (x, some e)) :
    upload rw r = rw.WriteHeader StatusBadRequest ∧
    (upload rw r).headerCalls = rw.headerCalls ++ [StatusBadRequest] ∧
    (upload rw r).body = rw.body ∧
    (upload .fresh r).status = StatusBadRequest ∧
    (upload .fresh r).body = [] := by
  rw [upload_of_error _ _ _ _ hdec, upload_of_error _ _ _ _ hdec]
  exact ⟨rfl, rfl, rfl, rfl, rfl⟩

/-- C4 at the body `{"content_length": 5000000001, "type": 5}`: the decoder
stores the length, fails on `type`, and `upload` sets the status once. -/
theorem upload_malformed_witness :
    Decode mistypedRequest.Body
      = (⟨"", "", 5000000001, ""⟩, some (.unmarshalType "type")) ∧
    (upload .fresh mistypedRequest).headerCalls = [StatusBadRequest] ∧
    (upload .fresh mistypedRequest).body = [] :=
  ⟨by decide,
   (upload_malformed .fresh mistypedRequest ⟨"", "", 5000000001, ""⟩
      (.unmarshalType "type") (by decide)).2.1,
   (upload_malformed .fresh mistypedRequest ⟨"", "", 5000000001, ""⟩
      (.unmarshalType "type") (by decide)).2.2.2.2⟩

/-- C6, as the specification states it, fails. The payload that declares
`sha256("hello")`, length 5 and type `blob`, followed by the bytes `hello`,
gets no status and no body from `upload` (the client receives 200 with an empty
body, not 201); and whatever function into well-formed hashes the digest is,
some request that passes every validation is not answered with 201 Created. -/
theorem upload_valid_not_created :
    upload .fresh (payloadRequest "blob" hashHello 5 (bytes "hello")) = .fresh ∧
    (upload .fresh (payloadRequest "blob" hashHello 5 (bytes "hello"))).status
      ≠ StatusCreated ∧
    ¬ ∃ digest : List UInt8 → String, (∀ b, isHexDigest (digest b) = true) ∧
        ∀ (r : Request) (x : uploadPayload),
          Decode r.Body = (x, none) → x.ContentLength ≤ 4000000000 →
          isHexDigest x.ContentHash = true → x.ContentHash = digest r.Body.rest →
          (upload .fresh r).status = StatusCreated := by
  refine ⟨by decide, by decide, ?_⟩
  rintro ⟨digest, hhex, h⟩
  have hdec := Decode_payloadRequest "blob" (digest (bytes "hello")) 5 (bytes "hello")
    (by decide)
  have h1 := h (payloadRequest "blob" (digest (bytes "hello")) 5 (bytes "hello"))
    _ hdec (by show (5 : Int) ≤ 4000000000; decide) (hhex _) rfl
  rw [upload_of_decoded _ _ _ hdec,
    if_neg (by show ¬ (5 : Int) > 4000000000; decide)] at h1
  revert h1
  decide

/-- C6, amended. The success path of `upload` writes nothing: for every request
whose payload passes validation (the body decodes, `content_length` is at most
4,000,000,000, `content_hash` is 64 hexadecimal characters and equals the digest
of the submitted bytes, whatever the digest function), `upload` sets no status
and writes no body, so the client receives 200 OK with an empty body. -/
theorem upload_valid_payload (digest : List UInt8 → String) (r : Request)
    (x : uploadPayload) (hdec : Decode r.Body = (x, none))
    (hle : x.ContentLength ≤ 4000000000)
    (_hhex : isHexDigest x.ContentHash = true)
    (_heq : x.ContentHash = digest r.Body.rest) :
    upload .fresh r = .fresh ∧
    (upload .fresh r).headerCalls = [] ∧
    (upload .fresh r).status = StatusOK ∧
    (upload .fresh r).body = [] := by
  rw [upload_of_decoded _ _ _ hdec, if_neg (by omega)]
  exact ⟨rfl, rfl, rfl, rfl⟩

/-- C6 amended, at the payload that declares `sha256("hello")`, length 5 and
type `blob` and is followed by the bytes `hello`, for a digest that maps them
to `sha256("hello")`. -/
theorem upload_valid_payload_witness :
    isHexDigest hashHello = true ∧
    (upload .fresh (payloadRequest "blob" hashHello 5 (bytes "hello"))).status = StatusOK ∧
    (upload .fresh (payloadRequest "blob" hashHello 5 (bytes "hello"))).body = [] :=
  ⟨by decide,
   (upload_valid_payload (fun _ => hashHello)
      (payloadRequest "blob" hashHello 5 (bytes "hello"))
      ⟨"", hashHello, 5, "blob"⟩ (by decide) (by decide) (by decide) rfl).2.2.1,
   (upload_valid_payload (fun _ => hashHello)
      (payloadRequest "blob" hashHello 5 (bytes "hello"))
      ⟨"", hashHello, 5, "blob"⟩ (by decide) (by decide) (by decide) rfl).2.2.2⟩

/-- C7, as the specification states it, fails: for the request of the children
of `hashHello`, a parent no store knows (the server has no store), `getChildren`
writes an empty body, which is the text of no JSON array, not even of `[]`, and
the status is 200, not 404. -/
theorem getChildren_writes_no_array :
    (getChildren .fresh childrenRequest).body = [] ∧
    (¬ ∃ hs : List String, (getChildren .fresh childrenRequest).body = jsonArray hs) ∧
    (getChildren .fresh childrenRequest).body ≠ bytes "[]" ∧
    (getChildren .fresh childrenRequest).status = StatusOK ∧
    (getChildren .fresh childrenRequest).status ≠ StatusNotFound := by
  refine ⟨rfl, ?_, by decide, rfl, by decide⟩
  rintro ⟨hs, h⟩
  exact jsonArray_ne_nil hs h.symm

/-- C7, amended. `getChildren` does nothing: for every request it leaves the
response writer as it was, so the client receives 200 OK with an empty body,
which is no JSON array, and never 404. -/
theorem getChildren_does_nothing (rw : ResponseWriter) (r : Request) :
    getChildren rw r = rw ∧
    (getChildren .fresh r).headerCalls = [] ∧
    (getChildren .fresh r).body = [] ∧
    (getChildren .fresh r).status = StatusOK ∧
    (getChildren .fresh r).status ≠ StatusNotFound ∧
    ∀ hs : List String, (getChildren .fresh r).body ≠ jsonArray hs := by
  have hs200 : (getChildren .fresh r).status = StatusOK := rfl
  refine ⟨rfl, rfl, rfl, rfl, by rw [hs200]; decide, ?_⟩
  intro hs h
  exact jsonArray_ne_nil hs h.symm

/-- C8, as the specification states it, fails: the payload that declares
`content_length` -1 decodes and is not answered with 400, and -1 is not a
non-negative integer. -/
theorem upload_accepts_negative_length :
    Decode (payloadRequest "blob" hashHello (-1) []).Body
      = (⟨"", hashHello, -1, "blob"⟩, none) ∧
    (upload .fresh (payloadRequest "blob" hashHello (-1) [])).headerCalls = [] ∧
    (upload .fresh (payloadRequest "blob" hashHello (-1) [])).status ≠ StatusBadRequest ∧
    ¬ (0 ≤ (⟨"", hashHello, -1, "blob"⟩ : uploadPayload).ContentLength) := by
  decide

/-- C8, amended. For every request whose body decodes into a payload and that
`upload` does not answer with 400, `content_length` is an integer of Go's `int`
that does not exceed 4,000,000,000; it may be negative. -/
theorem upload_accepted_length (r : Request) (x : uploadPayload)
    (hdec : Decode r.Body = (x, none))
    (hacc : (upload .fresh r).status ≠ StatusBadRequest) :
    -(2 ^ 63) ≤ x.ContentLength ∧ x.ContentLength ≤ 4000000000 := by
  have hr := (Decode_range r.Body).1
  rw [hdec] at hr
  refine ⟨hr, ?_⟩
  by_contra hgt
  apply hacc
  rw [upload_of_decoded _ _ _ hdec, if_pos (by omega)]
  rfl

/-- C8 amended, at the payload that declares `content_length` -1. -/
theorem upload_accepted_length_witness :
    (upload .fresh (payloadRequest "blob" hashHello (-1) [])).status ≠ StatusBadRequest ∧
    -(2 ^ 63) ≤ (-1 : Int) ∧ (-1 : Int) ≤ 4000000000 :=
  ⟨by decide,
   upload_accepted_length (payloadRequest "blob" hashHello (-1) [])
     ⟨"", hashHello, -1, "blob"⟩ (by decide) (by decide)⟩

/-- C9. The response of `upload` depends on a decoded payload through
`content_length` only: two requests whose bodies decode into payloads with the
same `content_length` get the same response from the same writer, whatever
their `metadata`, `content_hash` and `type` are, with no byte of body written;
and on every path, decoding errors included, `upload` writes no body and calls
`WriteHeader` at most once. -/
theorem upload_depends_on_length_only (rw : ResponseWriter) (r₁ r₂ : Request)
    (x₁ x₂ : uploadPayload)
    (h₁ : Decode r₁.Body = (x₁, none)) (h₂ : Decode r₂.Body = (x₂, none))
    (hlen : x₁.ContentLength = x₂.ContentLength) :
    upload rw r₁ = upload rw r₂ ∧
    (upload rw r₁).body = rw.body ∧
    (upload .fresh r₁).body = [] ∧
    ∀ r : Request,
      (upload rw r).body = rw.body ∧
      ((upload rw r).headerCalls = rw.headerCalls ∨
        ∃ code, (upload rw r).headerCalls = rw.headerCalls ++ [code]) ∧
      (upload rw r).headerCalls.length ≤ rw.headerCalls.length + 1 := by
  have hall : ∀ (w : ResponseWriter) (r : Request),
      (upload w r).body = w.body ∧
      ((upload w r).headerCalls = w.headerCalls ∨
        ∃ code, (upload w r).headerCalls = w.headerCalls ++ [code]) ∧
      (upload w r).headerCalls.length ≤ w.headerCalls.length + 1 := by
    intro w r
    have hd : Decode r.Body = ((Decode r.Body).1, (Decode r.Body).2) := rfl
    cases he : (Decode r.Body).2 with
    | none =>
        rw [he] at hd
        rw [upload_of_decoded _ _ _ hd]
        split
        · exact ⟨rfl, Or.inr ⟨_, rfl⟩, by simp [ResponseWriter.WriteHeader]⟩
        · exact ⟨rfl, Or.inl rfl, by omega⟩
    | some e =>
        rw [he] at hd
        rw [upload_of_error _ _ _ _ hd]
        exact ⟨rfl, Or.inr ⟨_, rfl⟩, by simp [ResponseWriter.WriteHeader]⟩
  refine ⟨?_, (hall rw r₁).1, (hall .fresh r₁).1, hall rw⟩
  rw [upload_of_decoded _ _ _ h₁, upload_of_decoded _ _ _ h₂, hlen]

/-- C9 at two payloads of length 5 that differ in hash and in type. -/
theorem upload_depends_on_length_only_witness :
    upload .fresh (payloadRequest "blob" hashHello 5 []) =
      upload .fresh (payloadRequest "tree" hashNotHex 5 (bytes "world")) :=
  (upload_depends_on_length_only .fresh (payloadRequest "blob" hashHello 5 [])
    (payloadRequest "tree" hashNotHex 5 (bytes "world"))
    ⟨"", hashHello, 5, "blob"⟩ ⟨"", hashNotHex, 5, "tree"⟩
    (by decide) (by decide) rfl).1

/-- C10. The code at a new mux. `RegisterRoutes` takes the mux by value, so
`HandleFunc` registers the one route, the pattern `/` bound to `index`, on the
copy the function holds: the call returns without a panic, and after it the mux
of the caller holds no route at all, not the one route that was to be
registered on it. The handler `index` writes the body `banner?` for
every request and never calls `WriteHeader`. -/
theorem RegisterRoutes_on_new_mux (conflicts : String → String → Bool) :
    RegisterRoutes conflicts ⟨[]⟩
      = .returned ⟨[("/", Handler.index)]⟩ (some ⟨[]⟩) ∧
    (∀ (rw : ResponseWriter) (r : Request),
      (Handler.index.serve rw r).body = rw.body ++ bytes "banner?" ∧
      (Handler.index.serve rw r).headerCalls = rw.headerCalls) :=
  ⟨rfl, fun _ _ => ⟨rfl, rfl⟩⟩

end Server
